import Mathlib

/-!
Shallow embedding of the stratum mining proxy (src/mining_proxy.py) and of the
parts of its design that the source delegates to the mining_libs / stratum
packages (absent from src/, modelled from the specification where noted).

The embedding keeps the Python names where Lean allows it: on_shutdown,
on_connect, on_disconnect, clear_authorizations, set_extranonce, main's
--socks proxy parsing.  Logging, pid files and the raw socket machinery are
excluded as external collaborators, exactly as the specification scopes them.
-/

namespace StratumProxy

/-- A Python runtime value, to the extent the proxy inspects one.  The
subscribe reply is a heterogeneous list; the code unpacks positions 0..2 of it
without type checks, so elements are kept as opaque tagged values. -/
inductive PyVal where
  | str (s : String)
  | int (n : Int)
  | nonev
  | other (tag : Nat)
  deriving DecidableEq, Repr

/-- The worker registry state: an association list from worker name to its
authorized flag (mining_libs/worker_registry.py holds this per instance). -/
structure WorkerRegistry where
  authorized : List (String × Bool)
  deriving DecidableEq, Repr

/-- Modelled from the spec: mining_libs/worker_registry.py is not in src/.
clear_authorizations() atomically flips every worker's authorized flag to
false. -/
def WorkerRegistry.clear_authorizations (w : WorkerRegistry) : WorkerRegistry :=
  { authorized := w.authorized.map (fun p => (p.1, false)) }

/-- Set (or insert) the cached authorized flag of one worker. -/
def WorkerRegistry.setAuthorized (w : WorkerRegistry) (name : String) (b : Bool) :
    WorkerRegistry :=
  if w.authorized.any (fun p => p.1 == name) then
    { authorized := w.authorized.map (fun p => if p.1 == name then (p.1, b) else p) }
  else
    { authorized := (name, b) :: w.authorized }

/-- True when every tracked worker's authorized flag is false. -/
def WorkerRegistry.allUnauthorized (w : WorkerRegistry) : Prop :=
  ∀ p ∈ w.authorized, p.2 = false

instance (w : WorkerRegistry) : Decidable w.allUnauthorized := by
  unfold WorkerRegistry.allUnauthorized; infer_instance

/-- The job registry state (mining_libs/jobs.py, instantiated in main): the
current extranonce configuration installed by set_extranonce, and the current
job template's id. -/
structure JobRegistry where
  extranonce : Option (PyVal × PyVal)
  currentJobId : Option String
  deriving DecidableEq, Repr

/-- Modelled from the spec: mining_libs/jobs.py is not in src/.
set_extranonce(extranonce1, extranonce2_size) installs a fresh extranonce
configuration in the registry. -/
def JobRegistry.set_extranonce (jr : JobRegistry) (e1 sz : PyVal) : JobRegistry :=
  { jr with extranonce := some (e1, sz) }

/-- Downstream listener class state (mining_libs/stratum_listener.py):
StratumProxyService keeps the extranonce pair pushed by _set_extranonce, and
MiningSubscription keeps the set of live downstream subscriptions (represented
by connection ids). -/
structure ListenerState where
  extranonce : Option (PyVal × PyVal)
  subscriptions : List Nat
  deriving DecidableEq, Repr

/-- The client factory state the proxy code touches: the stratum transport's
is_reconnecting flag, plus how many times the proxy's on_connect and
on_disconnect handlers are registered on the factory's event chains. -/
structure Factory where
  is_reconnecting : Bool
  onConnectHooked : Nat
  onDisconnectHooked : Nat
  deriving DecidableEq, Repr

/-- The whole proxy state visible to the handlers in src/mining_proxy.py. -/
structure ProxyState where
  factory : Factory
  workers : WorkerRegistry
  jobRegistry : JobRegistry
  listener : ListenerState
  deriving DecidableEq, Repr

/-- Observable side effects of the handlers, in issue order.  Logging is
excluded as bookkeeping per the spec's scope. -/
inductive Effect where
  | hookOnConnect
  | hookOnDisconnect
  | rpc (method : String) (params : List PyVal)
  | setExtranonceJobRegistry (e1 sz : PyVal)
  | setExtranonceListener (e1 sz : PyVal)
  | authorizeWorker (user : String) (pw : Option String)
  | disconnectAllSubscriptions
  | clearAuthorizations
  deriving DecidableEq, Repr

/-- The command-line arguments the handlers read. -/
structure Args where
  custom_user : Option String
  custom_password : Option String
  deriving DecidableEq, Repr

/-- Python truthiness of an optional string argument: None and the empty
string are falsy. -/
def pyTruthyStr : Option String → Bool
  | Option.none => false
  | some s => s != ""

/-- Embeds on_shutdown (src/mining_proxy.py lines 74-77): set the factory's
is_reconnecting flag to False so the stratum factory will not reconnect
again.  The log line is excluded bookkeeping. -/
def on_shutdown (f : Factory) : Factory :=
  { f with is_reconnecting := false }

/-- Embeds on_disconnect (src/mining_proxy.py lines 102-112).  In source
order: re-register itself on the factory's on_disconnect event chain, call
stratum_listener.MiningSubscription.disconnect_all() (modelled from the spec,
since mining_libs is not in src/: it invalidates every live downstream
subscription), and call workers.clear_authorizations().  The job_registry
argument is accepted by the Python handler but never used: the stored job and
extranonce configuration are left untouched. -/
def on_disconnect (s : ProxyState) : ProxyState × List Effect :=
  ( { s with
        factory := { s.factory with onDisconnectHooked := s.factory.onDisconnectHooked + 1 },
        listener := { s.listener with subscriptions := [] },
        workers := s.workers.clear_authorizations },
    [Effect.hookOnDisconnect, Effect.disconnectAllSubscriptions, Effect.clearAuthorizations] )

/-- Embeds on_connect (src/mining_proxy.py lines 79-100).  In source order:
re-register itself on the factory's on_connect event chain, clear all worker
authorizations, issue the mining.subscribe remote call, unpack the first
three reply elements (Python raises ValueError when fewer than three are
present, modelled as Except.error), install the extracted pair into the job
registry and into the downstream listener service, and finally, when
args.custom_user is truthy, call workers.authorize with the custom
credentials (per the spec, under an identity override local authorization
always succeeds, and the authorize call is issued upstream). -/
def on_connect (args : Args) (s : ProxyState) (reply : List PyVal) :
    Except String (ProxyState × List Effect) :=
  match reply with
  | _ :: extranonce1 :: extranonce2_size :: _ =>
    let f1 : Factory := { s.factory with onConnectHooked := s.factory.onConnectHooked + 1 }
    let w1 := s.workers.clear_authorizations
    let jr := s.jobRegistry.set_extranonce extranonce1 extranonce2_size
    let ls : ListenerState :=
      { s.listener with extranonce := some (extranonce1, extranonce2_size) }
    let baseEffects : List Effect :=
      [Effect.hookOnConnect, Effect.clearAuthorizations,
       Effect.rpc "mining.subscribe" [],
       Effect.setExtranonceJobRegistry extranonce1 extranonce2_size,
       Effect.setExtranonceListener extranonce1 extranonce2_size]
    if pyTruthyStr args.custom_user then
      let u := args.custom_user.getD ""
      Except.ok
        ( { factory := f1, workers := w1.setAuthorized u true, jobRegistry := jr,
            listener := ls },
          baseEffects ++ [Effect.authorizeWorker u args.custom_password] )
    else
      Except.ok ({ factory := f1, workers := w1, jobRegistry := jr, listener := ls },
        baseEffects)
  | _ => Except.error "ValueError: need more than 2 values to unpack"

/-! ## The --socks argument handling in main (src/mining_proxy.py lines 155-163) -/

/-- The first component of the proxy pair that main builds: either a plain
host string, or (when the branch for a missing separator is taken) the whole
list returned by split, stored as-is. -/
inductive ProxyHostComponent where
  | strv (s : String)
  | listv (xs : List String)
  deriving DecidableEq, Repr

/-- Digits of a decimal literal folded to a Nat. -/
def digitsToNat (cs : List Char) : Nat :=
  cs.foldl (fun acc c => acc * 10 + (c.toNat - 48)) 0

/-- Python 2's int(str): surrounding whitespace stripped, an optional sign,
then a nonempty run of decimal digits; anything else raises ValueError,
modelled as none. -/
def pyInt? (s : String) : Option Int :=
  match s.trim.toList with
  | [] => Option.none
  | c :: rest =>
    if c = '-' then
      if !rest.isEmpty && rest.all Char.isDigit then some (-(digitsToNat rest : Int))
      else Option.none
    else if c = '+' then
      if !rest.isEmpty && rest.all Char.isDigit then some ((digitsToNat rest : Int))
      else Option.none
    else if (c :: rest).all Char.isDigit then some ((digitsToNat (c :: rest) : Int))
    else Option.none

/-- Python's str.split with a one-character separator, over the character
list: the empty input yields one empty part, a separator starts a new part,
and any other character is prepended to the current first part. -/
def pySplitChar (sep : Char) : List Char → List (List Char)
  | [] => [[]]
  | c :: cs =>
    let r := pySplitChar sep cs
    if c = sep then [] :: r
    else
      match r with
      | [] => [[c]]
      | h :: t => (c :: h) :: t

/-- Python's str.split(sep) for a one-character separator, on strings. -/
def pySplit (sep : Char) (s : String) : List String :=
  (pySplitChar sep s.toList).map (fun cs => String.mk cs)

/-- Embeds the --socks handling in main (src/mining_proxy.py lines 155-163).
An untruthy (empty, the default) argument yields no proxy.  Otherwise the
argument is split on the colon; when fewer than two parts result, the code
builds the pair (proxy, 9050) where proxy is still the whole list returned by
split, and otherwise it builds (proxy[0], int(proxy[1])), where a failing
int() conversion raises (modelled as Except.error). -/
def mainProxyValue (proxyArg : String) : Except String (Option (ProxyHostComponent × Int)) :=
  if proxyArg == "" then Except.ok Option.none
  else
    match pySplit ':' proxyArg with
    | p0 :: p1 :: _ =>
      match pyInt? p1 with
      | some n => Except.ok (some (ProxyHostComponent.strv p0, n))
      | Option.none => Except.error "ValueError: invalid literal for int()"
    | parts => Except.ok (some (ProxyHostComponent.listv parts, 9050))

/-! ## Downstream extranonce2 range allocation (mining_libs/stratum_listener.py) -/

/-- Modelled from the spec: mining_libs/stratum_listener.py is not in src/.
Each subscribing worker is allocated a disjoint extranonce2 slice by a
monotonic counter over the extranonce2_size space; every slice is sliceBits
bits wide, so slice k covers the half-open interval of extranonce2 values
from k * 2 ^ sliceBits to (k + 1) * 2 ^ sliceBits.  deregister removes a
worker and frees its range. -/
structure Allocator where
  sliceBits : Nat
  nextSlice : Nat
  live : List (Nat × Nat)
  deriving DecidableEq, Repr

/-- Width of one worker's extranonce2 slice. -/
def Allocator.width (a : Allocator) : Nat := 2 ^ a.sliceBits

/-- Modelled from the spec: on a local subscribe the listener hands the worker
the next slice of the extranonce2 space and advances the monotonic counter. -/
def Allocator.subscribe (a : Allocator) (wid : Nat) : Allocator × Nat :=
  ({ a with nextSlice := a.nextSlice + 1, live := (wid, a.nextSlice) :: a.live },
   a.nextSlice)

/-- Modelled from the spec: deregister(worker_id) removes the worker and frees
its extranonce2_range for reuse. -/
def Allocator.deregister (a : Allocator) (wid : Nat) : Allocator :=
  { a with live := a.live.filter (fun p => p.1 != wid) }

/-- One downstream registry operation. -/
inductive WorkerOp where
  | subscribe (wid : Nat)
  | deregister (wid : Nat)
  deriving DecidableEq, Repr

/-- Apply one operation to the allocator state. -/
def Allocator.step : Allocator → WorkerOp → Allocator
  | a, WorkerOp.subscribe wid => (a.subscribe wid).1
  | a, WorkerOp.deregister wid => a.deregister wid

/-- Run a sequence of subscribe/deregister operations. -/
def Allocator.run (a : Allocator) (ops : List WorkerOp) : Allocator :=
  ops.foldl Allocator.step a

/-- The empty allocator over a 2 ^ bits wide slice space. -/
def Allocator.init (bits : Nat) : Allocator :=
  { sliceBits := bits, nextSlice := 0, live := [] }

/-- The half-open extranonce2 range [start, stop) of slice k when slices are
w wide. -/
def sliceRange (w k : Nat) : Nat × Nat := (k * w, (k + 1) * w)

/-- Two half-open ranges are disjoint when one ends before the other starts. -/
def rangesDisjoint (r1 r2 : Nat × Nat) : Prop :=
  r1.2 ≤ r2.1 ∨ r2.2 ≤ r1.1

instance (r1 r2 : Nat × Nat) : Decidable (rangesDisjoint r1 r2) := by
  unfold rangesDisjoint; infer_instance

/-! ## Share relay validation (spec section 4.5; mining_libs is not in src/) -/

/-- A share submission, transient value relayed by the proxy. -/
structure ShareSubmission where
  worker : String
  job_id : String
  extranonce2 : String
  ntime : String
  nonce : String
  deriving DecidableEq, Repr

/-- An upstream remote call issued by the relay. -/
inductive UpstreamCall where
  | submit (user job_id extranonce2 ntime nonce : String)
  | authorize (user : String) (pw : Option String)
  deriving DecidableEq, Repr

/-- Outcome of a relay submit as seen before any upstream reply. -/
inductive SubmitOutcome where
  | rejectedLocal (reason : String)
  | forwardedUpstream
  deriving DecidableEq, Repr

/-- Modelled from the spec: the ShareRelay (mining_libs is not in src/)
rejects locally, with no upstream round trip, a submission from an
unauthorized worker or one whose job_id is not the registry's current job id;
otherwise it rewrites the share into an upstream submit call, substituting
the identity override credentials when configured, and forwards it.  The
second component lists the upstream calls the operation performs. -/
def relaySubmit (authorized : String → Bool) (currentJobId : Option String)
    (override : Option (String × Option String)) (sub : ShareSubmission) :
    SubmitOutcome × List UpstreamCall :=
  if !(authorized sub.worker) then
    (SubmitOutcome.rejectedLocal "unauthorized worker", [])
  else if currentJobId != some sub.job_id then
    (SubmitOutcome.rejectedLocal "stale or unknown job", [])
  else
    let user := (override.map Prod.fst).getD sub.worker
    (SubmitOutcome.forwardedUpstream,
     [UpstreamCall.submit user sub.job_id sub.extranonce2 sub.ntime sub.nonce])

/-! ## Transport-level connection-loss handling (stratum package, not in src/) -/

/-- What the transport factory does when the socket is lost. -/
inductive TransportAction where
  | fireOnDisconnect
  | reconnectAttempt
  deriving DecidableEq, Repr

/-- Modelled from the spec: the stratum transport factory (an external
package, not in src/) owns retry policy; on a lost connection it delivers the
disconnect event to the registered handlers and schedules a reconnect
attempt, but only while its is_reconnecting flag is set — on_shutdown clears
that flag precisely so that no further reaction to subsequent disconnect
events occurs. -/
def connectionLost (s : ProxyState) : ProxyState × List TransportAction :=
  if s.factory.is_reconnecting then
    ((on_disconnect s).1,
     [TransportAction.fireOnDisconnect, TransportAction.reconnectAttempt])
  else (s, [])

/-- The whole-proxy effect of the shutdown trigger: on_shutdown on the
factory, everything else untouched. -/
def shutdownProxy (s : ProxyState) : ProxyState :=
  { s with factory := on_shutdown s.factory }

/-! ## Event-trace machine for the disconnect barrier (spec section 5) -/

/-- Is a worker's cached authorized flag set? -/
def WorkerRegistry.isAuthorized (w : WorkerRegistry) (name : String) : Bool :=
  (w.authorized.lookup name).getD false

/-- The identity override induced by the command line: configured exactly
when custom_user is truthy. -/
def Args.override (args : Args) : Option (String × Option String) :=
  if pyTruthyStr args.custom_user then some (args.custom_user.getD "", args.custom_password)
  else Option.none

/-- One event delivered to the proxy: transport lifecycle and upstream
notifications, or downstream worker requests.  The Bool parameters carry the
upstream pool's answer to a forwarded call, when one is reachable. -/
inductive UpEvent where
  | disconnect
  | connect (reply : List PyVal)
  | jobNotify (jobId : String)
  | workerAuthorize (name : String) (pw : String) (poolAccepts : Bool)
  | workerSubmit (sub : ShareSubmission) (poolAccepts : Bool)
  deriving DecidableEq, Repr

/-- The machine state: whether the upstream transport is connected, plus the
proxy state. -/
structure Sys where
  connected : Bool
  ps : ProxyState
  deriving DecidableEq, Repr

/-- Externally observable outcomes the barrier property talks about: a job
broadcast to the downstream workers, and a share acceptance. -/
inductive Obs where
  | broadcastJob (jobId : String)
  | shareAccepted (worker : String)
  deriving DecidableEq, Repr

/-- One step of the proxy event machine.  Transport events run the embedded
src handlers; the remaining transitions are modelled from the spec
(mining_libs is not in src/): a job notification is deliverable only over a
live connection and broadcasting requires an installed extranonce config
(spec section 4.2); a worker authorize succeeds locally whenever an identity
override is configured, and is otherwise forwarded upstream, which can
complete only while connected; a forwarded share can be accepted only when
the upstream connection is live. -/
def sysStep (args : Args) (s : Sys) : UpEvent → Sys × List Obs
  | UpEvent.disconnect =>
    ({ connected := false, ps := (on_disconnect s.ps).1 }, [])
  | UpEvent.connect reply =>
    match on_connect args s.ps reply with
    | Except.ok (ps1, _) => ({ connected := true, ps := ps1 }, [])
    | Except.error _ => (s, [])
  | UpEvent.jobNotify jobId =>
    if s.connected && s.ps.jobRegistry.extranonce.isSome then
      ({ s with ps := { s.ps with
           jobRegistry := { s.ps.jobRegistry with currentJobId := some jobId } } },
       [Obs.broadcastJob jobId])
    else (s, [])
  | UpEvent.workerAuthorize name _pw poolAccepts =>
    if pyTruthyStr args.custom_user then
      ({ s with ps := { s.ps with workers := s.ps.workers.setAuthorized name true } }, [])
    else if s.connected then
      ({ s with ps := { s.ps with workers := s.ps.workers.setAuthorized name poolAccepts } },
       [])
    else (s, [])
  | UpEvent.workerSubmit sub poolAccepts =>
    match relaySubmit (fun n => s.ps.workers.isAuthorized n)
        s.ps.jobRegistry.currentJobId args.override sub with
    | (SubmitOutcome.forwardedUpstream, _) =>
      (s, if s.connected && poolAccepts then [Obs.shareAccepted sub.worker] else [])
    | (SubmitOutcome.rejectedLocal _, _) => (s, [])

/-- Run a list of events, collecting the observations in order. -/
def sysRun (args : Args) (s : Sys) : List UpEvent → Sys × List Obs
  | [] => (s, [])
  | e :: es =>
    let p1 := sysStep args s e
    let p2 := sysRun args p1.1 es
    (p2.1, p1.2 ++ p2.2)

/-- Does an event complete a connect handshake? -/
def UpEvent.isConnect : UpEvent → Bool
  | UpEvent.connect _ => true
  | _ => false

/-! ## Shared concrete example states -/

/-- The effect trace of a connect handshake, empty when the reply is too
short to unpack. -/
def onConnectEffects (args : Args) (s : ProxyState) (reply : List PyVal) : List Effect :=
  match on_connect args s reply with
  | Except.ok p => p.2
  | Except.error _ => []

/-- The proxy state after a connect handshake, none when the reply is too
short to unpack. -/
def onConnectState (args : Args) (s : ProxyState) (reply : List PyVal) : Option ProxyState :=
  match on_connect args s reply with
  | Except.ok p => some p.1
  | Except.error _ => Option.none

/-- A concrete mid-session proxy state: one authorized worker, a current job
and extranonce config installed, one live downstream subscription. -/
def exampleState : ProxyState :=
  { factory := { is_reconnecting := true, onConnectHooked := 1, onDisconnectHooked := 1 },
    workers := { authorized := [("alice", true), ("bob", false)] },
    jobRegistry := { extranonce := some (PyVal.str "08000002", PyVal.int 4),
                     currentJobId := some "job-42" },
    listener := { extranonce := some (PyVal.str "08000002", PyVal.int 4),
                  subscriptions := [7] } }

/-- The example state with a live upstream connection. -/
def exampleSys : Sys := { connected := true, ps := exampleState }

/-- Command line without an identity override. -/
def argsNoOverride : Args := { custom_user := Option.none, custom_password := Option.none }

/-- Command line with a custom-user identity override. -/
def argsOverride : Args := { custom_user := some "pooluser", custom_password := some "poolpw" }

/-! ## Claim theorems -/

/-- C7: calling shutdown() twice yields the same resulting state (and, with
logging excluded as bookkeeping, the same observable side effects) as calling
it once; being a total function it cannot crash. -/
theorem on_shutdown_idempotent (f : Factory) :
    on_shutdown (on_shutdown f) = on_shutdown f := rfl

/-- C6: after shutdown() has set is_reconnecting to false, a subsequent
connection loss produces no reaction at all: the proxy state is unchanged,
the disconnect handlers are not fired, and no reconnect attempt is made. -/
theorem shutdown_disables_disconnect_reaction (s : ProxyState) :
    connectionLost (shutdownProxy s) = (shutdownProxy s, []) := by
  simp [connectionLost, shutdownProxy, on_shutdown]

/-- C1 counterexample: on a state holding a current job and an extranonce
config, on_disconnect returns the job registry completely unchanged — the
handler does not clear the stored job and extranonce config. -/
theorem on_disconnect_keeps_job_and_extranonce :
    (on_disconnect exampleState).1.jobRegistry =
      { extranonce := some (PyVal.str "08000002", PyVal.int 4),
        currentJobId := some "job-42" } := rfl

/-- C1 amended: on every upstream disconnect event the handler non-fatally
invalidates (disconnects) all downstream worker subscriptions and clears all
worker authorizations, in that order, before any reconnection handshake can
run; it leaves the stored job and extranonce config in the job registry
untouched (a fresh config is installed only by the next connect handshake). -/
theorem on_disconnect_effects (s : ProxyState) :
    (on_disconnect s).1.workers.allUnauthorized ∧
    (on_disconnect s).1.listener.subscriptions = [] ∧
    (on_disconnect s).1.jobRegistry = s.jobRegistry ∧
    (on_disconnect s).2 =
      [Effect.hookOnDisconnect, Effect.disconnectAllSubscriptions,
       Effect.clearAuthorizations] := by
  refine ⟨?_, rfl, rfl, rfl⟩
  intro p hp
  simp only [on_disconnect, WorkerRegistry.clear_authorizations, List.mem_map] at hp
  obtain ⟨q, _, rfl⟩ := hp
  rfl

/-- C5: on every transport connect event — including every reconnection,
since the handler's first action re-registers it on the factory's on_connect
chain — the handler clears all worker authorizations, issues the
mining.subscribe remote call, extracts (extranonce1, extranonce2_size) from
reply positions 1 and 2, and installs that pair as the fresh extranonce
config, in that order. -/
theorem on_connect_handshake (args : Args) (s : ProxyState)
    (r0 e1 sz : PyVal) (rest : List PyVal) :
    on_connect args s (r0 :: e1 :: sz :: rest) =
      Except.ok
        ( { factory := { s.factory with onConnectHooked := s.factory.onConnectHooked + 1 },
            workers :=
              if pyTruthyStr args.custom_user then
                (s.workers.clear_authorizations).setAuthorized (args.custom_user.getD "") true
              else s.workers.clear_authorizations,
            jobRegistry := s.jobRegistry.set_extranonce e1 sz,
            listener := { s.listener with extranonce := some (e1, sz) } },
          [Effect.hookOnConnect, Effect.clearAuthorizations,
           Effect.rpc "mining.subscribe" [],
           Effect.setExtranonceJobRegistry e1 sz,
           Effect.setExtranonceListener e1 sz]
          ++ (if pyTruthyStr args.custom_user then
                [Effect.authorizeWorker (args.custom_user.getD "") args.custom_password]
              else []) ) := by
  cases hcu : pyTruthyStr args.custom_user <;> simp [on_connect, hcu]

/-- C8: the connect handler issues an authorize call exactly when a custom
user is configured (truthy), and that call carries exactly the override
credentials; with no override configured, the handler issues no authorize
call at all. -/
theorem on_connect_authorize_call (args : Args) (s : ProxyState)
    (r0 e1 sz : PyVal) (rest : List PyVal) (u : String) (p : Option String) :
    Effect.authorizeWorker u p ∈ onConnectEffects args s (r0 :: e1 :: sz :: rest) ↔
      pyTruthyStr args.custom_user = true ∧
      u = args.custom_user.getD "" ∧ p = args.custom_password := by
  cases hcu : pyTruthyStr args.custom_user <;>
    simp [onConnectEffects, on_connect, hcu, eq_comm]

/-- C10: after a successful connect handshake the job registry and the
downstream listener hold identical extranonce parameters — the pair extracted
from the single subscribe reply — and the two install operations are issued
back to back, with nothing in between. -/
theorem extranonce_installed_in_both (args : Args) (s : ProxyState)
    (r0 e1 sz : PyVal) (rest : List PyVal) :
    (onConnectState args s (r0 :: e1 :: sz :: rest)).map
        (fun s1 => (s1.jobRegistry.extranonce, s1.listener.extranonce)) =
      some (some (e1, sz), some (e1, sz)) ∧
    ∃ pre post, onConnectEffects args s (r0 :: e1 :: sz :: rest) =
      pre ++ Effect.setExtranonceJobRegistry e1 sz ::
        Effect.setExtranonceListener e1 sz :: post := by
  constructor
  · cases hcu : pyTruthyStr args.custom_user <;>
      simp [onConnectState, on_connect, hcu, JobRegistry.set_extranonce]
  · refine ⟨[Effect.hookOnConnect, Effect.clearAuthorizations,
      Effect.rpc "mining.subscribe" []],
      if pyTruthyStr args.custom_user then
        [Effect.authorizeWorker (args.custom_user.getD "") args.custom_password]
      else [], ?_⟩
    cases hcu : pyTruthyStr args.custom_user <;>
      simp [onConnectEffects, on_connect, hcu]

/-! ## Allocator invariant (claim C2) -/

/-- The allocator invariant: every live slice index lies below the monotonic
counter, and the live slice indices are pairwise distinct. -/
def Allocator.Inv (a : Allocator) : Prop :=
  (∀ p ∈ a.live, p.2 < a.nextSlice) ∧ a.live.Pairwise (fun p q => p.2 ≠ q.2)

theorem Allocator.Inv.step {a : Allocator} (h : a.Inv) (op : WorkerOp) :
    (a.step op).Inv := by
  obtain ⟨hlt, hpw⟩ := h
  cases op with
  | subscribe wid =>
    simp only [Allocator.step, Allocator.subscribe, Allocator.Inv]
    constructor
    · intro p hp
      rcases List.mem_cons.1 hp with rfl | hp
      · exact Nat.lt_succ_self _
      · exact Nat.lt_succ_of_lt (hlt p hp)
    · exact List.Pairwise.cons (fun q hq => ne_of_gt (hlt q hq)) hpw
  | deregister wid =>
    simp only [Allocator.step, Allocator.deregister, Allocator.Inv]
    constructor
    · intro p hp
      exact hlt p (List.mem_of_mem_filter hp)
    · exact hpw.sublist (List.filter_sublist _)

theorem Allocator.Inv.run {a : Allocator} (h : a.Inv) (ops : List WorkerOp) :
    (a.run ops).Inv := by
  induction ops generalizing a with
  | nil => exact h
  | cons op ops ih => exact ih (h.step op)

theorem Allocator.init_Inv (bits : Nat) : (Allocator.init bits).Inv :=
  ⟨fun p hp => absurd hp (List.not_mem_nil p), List.Pairwise.nil⟩

theorem sliceRange_disjoint {w k l : Nat} (hkl : k ≠ l) :
    rangesDisjoint (sliceRange w k) (sliceRange w l) := by
  rcases hkl.lt_or_lt with h | h
  · exact Or.inl (by simpa [sliceRange] using mul_le_mul_right' (Nat.succ_le_of_lt h) w)
  · exact Or.inr (by simpa [sliceRange] using mul_le_mul_right' (Nat.succ_le_of_lt h) w)

/-- C2: for every sequence of worker subscribe (and deregister) operations,
the extranonce2 ranges held by the currently connected workers are pairwise
disjoint; since the counter is monotonic, a newly allocated range never
overlaps a live one, and an index leaves the live list only on deregister. -/
theorem extranonce2_ranges_pairwise_disjoint (bits : Nat) (ops : List WorkerOp) :
    ((Allocator.init bits).run ops).live.Pairwise (fun p q =>
      rangesDisjoint (sliceRange ((Allocator.init bits).run ops).width p.2)
        (sliceRange ((Allocator.init bits).run ops).width q.2)) := by
  have hinv := (Allocator.init_Inv bits).run ops
  refine hinv.2.imp ?_
  intro p q hne
  exact sliceRange_disjoint hne

/-- C3: a submission from a currently unauthorized worker, or one whose
job_id differs from the registry's current job id, is rejected locally with a
reason and performs zero upstream calls. -/
theorem stale_or_unauthorized_rejected (authorized : String → Bool)
    (currentJobId : Option String) (override : Option (String × Option String))
    (sub : ShareSubmission)
    (h : authorized sub.worker = false ∨ currentJobId ≠ some sub.job_id) :
    ∃ reason, relaySubmit authorized currentJobId override sub =
      (SubmitOutcome.rejectedLocal reason, []) := by
  rcases h with h | h
  · exact ⟨"unauthorized worker", by simp [relaySubmit, h]⟩
  · by_cases ha : authorized sub.worker
    · exact ⟨"stale or unknown job", by simp [relaySubmit, ha, bne, h]⟩
    · exact ⟨"unauthorized worker", by
        simp [relaySubmit, Bool.eq_false_iff.2 ha]⟩

/-- C3 witness: a stale-job submission against a concrete registry is
rejected locally with no upstream call. -/
theorem stale_or_unauthorized_rejected_witness :
    ∃ reason, relaySubmit (fun _ => true) (some "job-42") Option.none
      { worker := "alice", job_id := "job-41", extranonce2 := "0000",
        ntime := "504e86ed", nonce := "b2957c02" } =
      (SubmitOutcome.rejectedLocal reason, []) :=
  stale_or_unauthorized_rejected (fun _ => true) (some "job-42") Option.none
    { worker := "alice", job_id := "job-41", extranonce2 := "0000",
      ntime := "504e86ed", nonce := "b2957c02" }
    (Or.inr (by decide))

/-! ## The disconnect barrier (claim C4) -/

theorem sysStep_disconnected (args : Args) (s : Sys) (e : UpEvent)
    (hc : s.connected = false) (he : e.isConnect = false) :
    (sysStep args s e).1.connected = false ∧ (sysStep args s e).2 = [] ∧
    (pyTruthyStr args.custom_user = false → s.ps.workers.allUnauthorized →
      (sysStep args s e).1.ps.workers.allUnauthorized) := by
  cases e with
  | disconnect =>
    refine ⟨rfl, rfl, fun _ _ => ?_⟩
    intro p hp
    simp only [sysStep, on_disconnect, WorkerRegistry.clear_authorizations,
      List.mem_map] at hp
    obtain ⟨q, _, rfl⟩ := hp
    rfl
  | connect reply => simp [UpEvent.isConnect] at he
  | jobNotify jobId => simp [sysStep, hc]
  | workerAuthorize name pw poolAccepts =>
    by_cases hcu : pyTruthyStr args.custom_user
    · refine ⟨by simp [sysStep, hcu, hc], by simp [sysStep, hcu], fun hfalse _ => ?_⟩
      rw [hcu] at hfalse
      exact absurd hfalse (by simp)
    · have hb : pyTruthyStr args.custom_user = false := Bool.eq_false_iff.2 hcu
      have hstep : sysStep args s (UpEvent.workerAuthorize name pw poolAccepts) = (s, []) := by
        simp [sysStep, hb, hc]
      rw [hstep]
      exact ⟨hc, rfl, fun _ h => h⟩
  | workerSubmit sub poolAccepts =>
    rcases hr : relaySubmit (fun n => s.ps.workers.isAuthorized n)
        s.ps.jobRegistry.currentJobId args.override sub with ⟨out, calls⟩
    cases out <;> simp [sysStep, hr, hc]

theorem sysRun_disconnected (args : Args) (evs : List UpEvent) :
    ∀ s : Sys, s.connected = false → (∀ e ∈ evs, e.isConnect = false) →
    (sysRun args s evs).1.connected = false ∧ (sysRun args s evs).2 = [] ∧
    (pyTruthyStr args.custom_user = false → s.ps.workers.allUnauthorized →
      (sysRun args s evs).1.ps.workers.allUnauthorized) := by
  induction evs with
  | nil => exact fun s hc _ => ⟨hc, rfl, fun _ h => h⟩
  | cons e es ih =>
    intro s hc hall
    have he := hall e (List.mem_cons_self e es)
    have hstep := sysStep_disconnected args s e hc he
    have hrest := ih (sysStep args s e).1 hstep.1
      (fun x hx => hall x (List.mem_cons_of_mem e hx))
    refine ⟨hrest.1, ?_, fun hcu h0 => hrest.2.2 hcu (hstep.2.2 hcu h0)⟩
    show ((sysRun args (sysStep args s e).1 es).1,
      (sysStep args s e).2 ++ (sysRun args (sysStep args s e).1 es).2).2 = []
    rw [hstep.2.1, hrest.2.1]
    rfl

/-- C4 amended: after any upstream disconnect event, no job broadcast and no
share acceptance is observed in the whole interval before the next completed
subscribe handshake; and when no custom-user identity override is configured,
every worker's authorized flag is false throughout that interval.  (Under an
override, a worker re-authorizing inside the window is locally authorized —
see the counterexample.) -/
theorem disconnect_barrier (args : Args) (s : Sys) (evs : List UpEvent)
    (hevs : ∀ e ∈ evs, e.isConnect = false) :
    (sysRun args (sysStep args s UpEvent.disconnect).1 evs).2 = [] ∧
    (pyTruthyStr args.custom_user = false →
      (sysRun args
        (sysStep args s UpEvent.disconnect).1 evs).1.ps.workers.allUnauthorized) := by
  have h0 : (sysStep args s UpEvent.disconnect).1.connected = false := rfl
  have hall0 : (sysStep args s UpEvent.disconnect).1.ps.workers.allUnauthorized := by
    intro p hp
    simp only [sysStep, on_disconnect, WorkerRegistry.clear_authorizations,
      List.mem_map] at hp
    obtain ⟨q, _, rfl⟩ := hp
    rfl
  have h := sysRun_disconnected args evs (sysStep args s UpEvent.disconnect).1 h0 hevs
  exact ⟨h.2.1, fun hcu => h.2.2 hcu hall0⟩

/-- C4 witness: the barrier theorem applied to a concrete mid-session state,
with a concrete job notification arriving inside the disconnected window. -/
theorem disconnect_barrier_witness :
    (sysRun argsNoOverride (sysStep argsNoOverride exampleSys UpEvent.disconnect).1
      [UpEvent.jobNotify "job-43"]).2 = [] ∧
    (sysRun argsNoOverride (sysStep argsNoOverride exampleSys UpEvent.disconnect).1
      [UpEvent.jobNotify "job-43"]).1.ps.workers.allUnauthorized :=
  ⟨(disconnect_barrier argsNoOverride exampleSys [UpEvent.jobNotify "job-43"]
      (by decide)).1,
   (disconnect_barrier argsNoOverride exampleSys [UpEvent.jobNotify "job-43"]
      (by decide)).2 rfl⟩

/-- C4 counterexample: with a custom-user override configured, a worker that
re-authorizes during the disconnected window — before any reconnection
handshake — ends up with its authorized flag true, so the claim that every
worker's flag stays false until the next successful subscribe fails. -/
theorem disconnect_barrier_override_breach :
    (UpEvent.workerAuthorize "alice" "x" false).isConnect = false ∧
    (sysRun argsOverride (sysStep argsOverride exampleSys UpEvent.disconnect).1
      [UpEvent.workerAuthorize "alice" "x" false]).1.ps.workers.isAuthorized "alice"
      = true := by
  exact ⟨rfl, rfl⟩

/-! ## The --socks parsing flaw (claim C9) -/

theorem pySplitChar_no_sep (sep : Char) (cs : List Char) (h : sep ∉ cs) :
    pySplitChar sep cs = [cs] := by
  induction cs with
  | nil => rfl
  | cons c cs ih =>
    have hc : ¬ c = sep := fun hh => h (by simp [hh])
    have hcs : sep ∉ cs := fun hm => h (List.mem_cons_of_mem c hm)
    simp [pySplitChar, hc, ih hcs]

theorem mk_toList_self (s : String) : String.mk s.toList = s := by
  cases s
  rfl

/-- C9: a nonempty --socks argument with no colon takes the missing-separator
branch of main, which builds the pair (proxy, 9050) whose first component is
the entire one-element list returned by split — a malformed host value; and a
well-formed pair, whose first component is a host string, is only ever
produced for an argument that does contain a colon. -/
theorem socks_without_colon_malformed (s : String) (h1 : s ≠ "")
    (h2 : ':' ∉ s.toList) :
    pySplit ':' s = [s] ∧
    mainProxyValue s = Except.ok (some (ProxyHostComponent.listv [s], 9050)) ∧
    (∀ t host port,
      mainProxyValue t = Except.ok (some (ProxyHostComponent.strv host, port)) →
      ':' ∈ t.toList) := by
  have hsp : pySplit ':' s = [s] := by
    show (pySplitChar ':' s.toList).map (fun cs => String.mk cs) = [s]
    rw [pySplitChar_no_sep ':' s.toList h2]
    simp [mk_toList_self]
  have hb : (s == "") = false := by
    simp only [beq_eq_false_iff_ne, ne_eq]
    exact h1
  refine ⟨hsp, ?_, ?_⟩
  · simp [mainProxyValue, hb, hsp]
  · intro t host port h
    cases ht : (t == "") with
    | true => simp [mainProxyValue, ht] at h
    | false =>
      by_contra hmem
      have hspt : pySplit ':' t = [t] := by
        show (pySplitChar ':' t.toList).map (fun cs => String.mk cs) = [t]
        rw [pySplitChar_no_sep ':' t.toList hmem]
        simp [mk_toList_self]
      simp [mainProxyValue, ht, hspt] at h

/-- C9 witness: the concrete argument localhost (no colon) yields the
malformed pair whose first component is the whole singleton list. -/
theorem socks_without_colon_malformed_witness :
    pySplit ':' "localhost" = ["localhost"] ∧
    mainProxyValue "localhost" =
      Except.ok (some (ProxyHostComponent.listv ["localhost"], 9050)) :=
  ⟨(socks_without_colon_malformed "localhost" (by decide) (by decide)).1,
   (socks_without_colon_malformed "localhost" (by decide) (by decide)).2.1⟩

end StratumProxy

